import Mathlib

/-!
Verification of the aster semantic-facade layer (package `aster`).

The Go sources `type_node.go`, `inspect.go` and the package-info file are
shallowly embedded below.  Pure functions become Lean functions; methods that
mutate their receiver and return an `error` become functions returning the new
state paired with an optional error message.  Go's `(value, ok)` returns become
`Option`, and a Go panic is embedded as `none` of an `Option` result.

Parts of the repository that the claims depend on but whose sources are not in
`src/` (the `FuncNode` accessors from `func_node.go`, the kind bitset test from
`kind.go`, the facade accessors from `fa.go`, and the vendored `structtag`
library) are modelled from the specification; each such definition carries a
doc comment saying so.
-/

set_option maxHeartbeats 1000000

namespace Aster

/-! ### Kind taxonomy

Modelled from the spec: `ObjKind` and `TypKind` (file `kind.go` is absent from
`src/`) are "bitset-capable" enumerations; each kind is a distinct bit and
`In` tests whether a value's bit is present in a mask. -/

abbrev ObjKind := Nat
abbrev TypKind := Nat

def ObjKind.Bad : ObjKind := 1
def ObjKind.Lbl : ObjKind := 2
def ObjKind.Bui : ObjKind := 4
def ObjKind.Nil : ObjKind := 8
def ObjKind.Con : ObjKind := 16
def ObjKind.Var : ObjKind := 32
def ObjKind.Fun : ObjKind := 64
def ObjKind.Typ : ObjKind := 128
def ObjKind.Pkg : ObjKind := 256

/-- Modelled from the spec: membership of a kind's bit in a mask. -/
def ObjKind.In (k set : ObjKind) : Bool := Nat.land k set != 0

def TypKind.Suspense : TypKind := 1
def TypKind.Basic : TypKind := 2
def TypKind.Array : TypKind := 4
def TypKind.Slice : TypKind := 8
def TypKind.Map : TypKind := 16
def TypKind.Chan : TypKind := 32
def TypKind.Interface : TypKind := 64
def TypKind.Struct : TypKind := 128
def TypKind.Func : TypKind := 256
def TypKind.Ptr : TypKind := 512

/-- Modelled from the spec: membership of a kind's bit in a mask. -/
def TypKind.In (k set : TypKind) : Bool := Nat.land k set != 0

/-! ### Function nodes

Modelled from the spec (`func_node.go` is absent from `src/`): a method
exposes its name, variadic flag, optional receiver field, and bounds-checked
indexed access to its parameter and result fields; out-of-range access
reports not-found together with a zero-valued field, mirroring the Go
`(FuncField, bool)` convention used by `StructType.Field`. -/

structure FuncField where
  TypeName : String
deriving DecidableEq

def fieldDefault : FuncField := { TypeName := "" }

structure FuncNode where
  name : String
  isVariadic : Bool
  recv : Option FuncField
  params : List FuncField
  results : List FuncField
deriving DecidableEq

def fnDefault : FuncNode :=
  { name := "", isVariadic := false, recv := none, params := [], results := [] }

/-- Bounds-checked indexed access into a field list. -/
def fieldAt (l : List FuncField) (i : Int) : FuncField × Bool :=
  if 0 ≤ i ∧ i < (l.length : Int) then (l.getD i.toNat fieldDefault, true)
  else (fieldDefault, false)

def FuncNode.Param (m : FuncNode) (i : Int) : FuncField × Bool := fieldAt m.params i

def FuncNode.Result (m : FuncNode) (i : Int) : FuncField × Bool := fieldAt m.results i

def FuncNode.NumParam (m : FuncNode) : Nat := m.params.length

def FuncNode.NumResult (m : FuncNode) : Nat := m.results.length

def FuncNode.Recv (m : FuncNode) : Option FuncField := m.recv

/-! ### superType: the shared base of all type-node variants (`type_node.go`) -/

structure superType where
  name : String
  kind : TypKind
  isAssign : Bool
  methods : List FuncNode
deriving DecidableEq

def superType.IsAssign (s : superType) : Bool := s.isAssign

def superType.NumMethod (s : superType) : Nat := s.methods.length

/-- `Method` returns the i'th method; out of range reports not-found. -/
def superType.Method (s : superType) (i : Int) : Option FuncNode :=
  if 0 ≤ i ∧ i < (s.methods.length : Int) then some (s.methods.getD i.toNat fnDefault)
  else none

/-- `MethodByName`: first match wins on a linear scan. -/
def superType.MethodByName (s : superType) (nm : String) : Option FuncNode :=
  s.methods.find? (fun m => m.name == nm)

/-- `addMethod`: validates the receiver against the owner's name; on error the
method list is left unchanged (the Go method mutates the receiver only on the
success path and returns the error). -/
def superType.addMethod (s : superType) (m : FuncNode) : superType × Option String :=
  match m.recv with
  | none => (s, some ("not method: " ++ m.name))
  | some field =>
    if field.TypeName != s.name then
      (s, some ("reveiver do not match method: " ++ m.name ++ ", want: " ++ s.name
        ++ ", got: " ++ field.TypeName))
    else ({ s with methods := s.methods ++ [m] }, none)

/-- The parameter/result comparison loop of `Implements`: Go iterates
`for j := count; j >= 0; j--`, one slot past the valid range. -/
def eqFrom (xs ys : List FuncField) : Nat → Bool
  | 0 => (fieldAt xs 0).1.TypeName == (fieldAt ys 0).1.TypeName
  | j + 1 =>
    ((fieldAt xs ((j : Int) + 1)).1.TypeName == (fieldAt ys ((j : Int) + 1)).1.TypeName)
      && eqFrom xs ys j

/-- The per-method body of the `Implements` loop: name lookup, then the
variadic/arity guards, then the positional comparisons. -/
def methodCheck (s : superType) (um : FuncNode) : Bool :=
  match s.MethodByName um.name with
  | none => false
  | some cm =>
    (um.isVariadic == cm.isVariadic) && (um.NumParam == cm.NumParam)
      && (um.NumResult == cm.NumResult)
      && eqFrom um.params cm.params um.NumParam
      && eqFrom um.results cm.results um.NumResult

/-- The outer loop of `Implements`: Go iterates `i` from `NumMethod()-1`
down to `0`; `implAux s u (i+1)` checks index `i` and recurses. -/
def implAux (s u : superType) : Nat → Bool
  | 0 => true
  | i + 1 => methodCheck s (u.methods.getD i fnDefault) && implAux s u i

/-- `Implements` reports whether the type implements the interface type `u`. -/
def superType.Implements (s u : superType) : Bool :=
  implAux s u u.methods.length

/-- The claim's per-method condition, written from the spec sentence: the
same-named method found on `self` must agree on variadic-ness, parameter
count, result count, and positionally on parameter and result type-names
(valid indices only). -/
def specCovered (s : superType) (um : FuncNode) : Bool :=
  match s.MethodByName um.name with
  | none => false
  | some cm =>
    (um.isVariadic == cm.isVariadic) && (um.params.length == cm.params.length)
      && (um.results.length == cm.results.length)
      && ((List.range um.params.length).all fun j =>
            (um.params.getD j fieldDefault).TypeName == (cm.params.getD j fieldDefault).TypeName)
      && ((List.range um.results.length).all fun j =>
            (um.results.getD j fieldDefault).TypeName == (cm.results.getD j fieldDefault).TypeName)

/-! ### List types (`newListType`, `ListType.Len`)

The length expression of an `ast.ArrayType` is embedded as an `Expr`:
`basicLit` is an `*ast.BasicLit` carrying its literal text, `ident` a named
constant, `other` any other expression shape. -/

inductive Expr where
  | basicLit (value : String)
  | ident (nm : String)
  | other
deriving DecidableEq

structure ListType where
  sup : superType
  lenExpr : Option Expr
deriving DecidableEq

def ListType.Kind (l : ListType) : TypKind := l.sup.kind

/-- `newListType`: `Slice` kind when the array type has no length expression,
`Array` kind when it has one. -/
def newListType (nm : String) (isAssign : Bool) (lenE : Option Expr) : ListType :=
  { sup :=
      { name := nm
        kind := if lenE.isSome then TypKind.Array else TypKind.Slice
        isAssign := isAssign
        methods := [] }
    lenExpr := lenE }

/-- Decimal value of a digit list, as folded by `strconv.Atoi`. -/
def digitsVal (cs : List Char) : Nat :=
  cs.foldl (fun acc c => acc * 10 + (c.toNat - Char.toNat (Char.ofNat 48))) 0

/-- Sign-stripped body of `strconv.Atoi`: a non-empty all-digit string parses
to its decimal value; anything else is a syntax error, reported together with
the zero value (range errors of the 64-bit implementation are not modelled;
array lengths in source text are far below that bound). -/
def atoiDigits (ds : List Char) (neg : Bool) : Int × Bool :=
  if ds.isEmpty then (0, false)
  else if ds.all (fun d => d.isDigit) then
    (if neg then -(digitsVal ds : Int) else (digitsVal ds : Int), true)
  else (0, false)

def atoiAux : List Char → Int × Bool
  | [] => (0, false)
  | c :: rest =>
    if c = '-' then atoiDigits rest true
    else if c = '+' then atoiDigits rest false
    else atoiDigits (c :: rest) false

/-- Embedding of `strconv.Atoi`. -/
def atoi (s : String) : Int × Bool := atoiAux s.data

/-- `ListType.Len`: `(-1, false)` for a slice; for an array the length
expression is cast unchecked to `*ast.BasicLit` (a non-literal expression
panics, embedded as `none`) and the `strconv.Atoi` error is discarded. -/
def ListType.Len (l : ListType) : Option (Int × Bool) :=
  if l.Kind == TypKind.Slice then some (-1, false)
  else
    match l.lenExpr with
    | some (Expr.basicLit v) => some ((atoi v).1, true)
    | _ => none

/-! ### Struct tags

The `structtag` dependency is modelled from the spec: tag text is
space-separated `key:"value"` pairs; a key is a non-empty run of characters
above U+0020 other than colon and quote; the quoted value splits on commas
into a name and options.  (Backslash escape sequences inside values are not
modelled; no claim exercises them.) -/

structure Tag where
  key : String
  nm : String
  options : List String
deriving DecidableEq

def errTagSyntax : String := "bad syntax for struct tag pair"

def errTagValueSyntax : String := "bad syntax for struct tag value"

def errTagNotExist : String := "tag does not exist"

def errKeyNotSet : String := "tag key does not exist"

def keyChar (c : Char) : Bool := (' ' < c) && c != ':' && c != '"'

def skipLeadingSpace : List Char → List Char
  | [] => []
  | c :: rest => if c = ' ' then skipLeadingSpace rest else c :: rest

/-- Scan up to the closing quote of a tag value; `none` when it is missing. -/
def splitValue : List Char → Option (List Char × List Char)
  | [] => none
  | c :: rest =>
    if c = '"' then some ([], rest)
    else
      match splitValue rest with
      | none => none
      | some (v, r) => some (c :: v, r)

/-- Parse one `key:"value"` pair from the front of the character list. -/
def parseTagStep (cs : List Char) : Except String (Tag × List Char) :=
  let key := cs.takeWhile keyChar
  let rest := cs.dropWhile keyChar
  if key.isEmpty then Except.error errTagSyntax
  else
    match rest with
    | ':' :: '"' :: vrest =>
      match splitValue vrest with
      | none => Except.error errTagValueSyntax
      | some (v, r) =>
        match (String.mk v).splitOn "," with
        | [] => Except.ok ({ key := String.mk key, nm := "", options := [] }, r)
        | n :: opts => Except.ok ({ key := String.mk key, nm := n, options := opts }, r)
    | _ => Except.error errTagSyntax

def parseTagsAux : Nat → List Char → Except String (List Tag)
  | 0, _ => Except.error errTagSyntax
  | fuel + 1, cs =>
    let cs' := skipLeadingSpace cs
    if cs'.isEmpty then Except.ok []
    else
      match parseTagStep cs' with
      | Except.error e => Except.error e
      | Except.ok (t, rest) =>
        match parseTagsAux fuel rest with
        | Except.error e => Except.error e
        | Except.ok ts => Except.ok (t :: ts)

/-- Modelled from the spec: `structtag.Parse`.  The fuel starts above the
character count and every iteration consumes at least one character, so the
zero-fuel branch is unreachable. -/
def parseTags (s : String) : Except String (List Tag) :=
  parseTagsAux (s.length + 1) s.data

/-- Serialization of one tag: `key:"name,opt1,opt2"`. -/
def tagToString (t : Tag) : String :=
  t.key ++ ":\"" ++ String.intercalate "," (t.nm :: t.options) ++ "\""

def tagsToString (ts : List Tag) : String :=
  String.intercalate " " (ts.map tagToString)

/-- Lexicographic (byte-order) comparison of character lists, the string
order `sort.Sort` uses on tag keys. -/
def chLe : List Char → List Char → Bool
  | [], _ => true
  | _ :: _, [] => false
  | a :: as, b :: bs =>
    if a.toNat < b.toNat then true
    else if b.toNat < a.toNat then false
    else chLe as bs

def strLeB (a b : String) : Bool := chLe a.data b.data

/-- Key order used by `sort.Sort` on the tag collection. -/
def tagLe (a b : Tag) : Prop := strLeB a.key b.key = true

instance : DecidableRel tagLe :=
  fun a b => inferInstanceAs (Decidable (strLeB a.key b.key = true))

def sortTags (ts : List Tag) : List Tag := List.insertionSort tagLe ts

/-- Modelled from the spec: `structtag.Tags.Get` — the first tag with the
given key, or the not-exist error. -/
def tagsGet (ts : List Tag) (k : String) : Except String Tag :=
  match ts.find? (fun t => t.key == k) with
  | some t => Except.ok t
  | none => Except.error errTagNotExist

/-- Modelled from the spec: `structtag.Tags.Set` upserts, overwriting every
tag that collides on the key, appending otherwise. -/
def tagsSet (ts : List Tag) (t : Tag) : List Tag :=
  if ts.any (fun x => x.key == t.key) then
    ts.map (fun x => if x.key == t.key then t else x)
  else ts ++ [t]

def tagsDelete (ts : List Tag) (ks : List String) : List Tag :=
  ts.filter (fun x => !(ks.contains x.key))

/-- The tag handler: the field's raw annotation text (`none` embeds a field
with no tag literal) together with the parsed tag collection. -/
structure StructTag where
  fieldTag : Option String
  tags : List Tag
deriving DecidableEq

/-- `resetValue`: sort the collection by key, re-serialize it into the field's
raw text, and clear the annotation entirely when the result is empty. -/
def StructTag.resetValue (s : StructTag) : StructTag :=
  let sorted := sortTags s.tags
  let value := tagsToString sorted
  if value = "" then { fieldTag := none, tags := sorted }
  else { fieldTag := some value, tags := sorted }

/-- `reparse`: re-read the collection from the field's raw text; a parse
error is returned but the collection degrades to the empty set. -/
def StructTag.reparse (s : StructTag) : StructTag × Option String :=
  let value := s.fieldTag.getD ""
  match parseTags value with
  | Except.ok ts => ({ s with tags := ts }, none)
  | Except.error e => ({ s with tags := [] }, some e)

def newStructTag (ft : Option String) : StructTag :=
  (StructTag.reparse { fieldTag := ft, tags := [] }).1

def StructTag.Get (s : StructTag) (k : String) : Except String Tag := tagsGet s.tags k

def StructTag.Keys (s : StructTag) : List String := s.tags.map (fun t => t.key)

def StructTag.TagsList (s : StructTag) : List Tag := s.tags

/-- `StructTag.String` in the source. -/
def StructTag.text (s : StructTag) : String := tagsToString s.tags

/-- `Set`: reject a structurally invalid tag (blank key) leaving the state
unchanged; a successful upsert immediately re-serializes via `resetValue`. -/
def StructTag.Set (s : StructTag) (t : Tag) : StructTag × Option String :=
  if t.key == "" then (s, some errKeyNotSet)
  else (StructTag.resetValue { s with tags := tagsSet s.tags t }, none)

/-- `Delete` removes the given keys and re-serializes. -/
def StructTag.Delete (s : StructTag) (ks : List String) : StructTag :=
  StructTag.resetValue { s with tags := tagsDelete s.tags ks }

/-! ### Struct types (`StructType.Field`) -/

structure StructField where
  nm : String
  tag : Option String
deriving DecidableEq

def sfDefault : StructField := { nm := "", tag := none }

structure StructType where
  sup : superType
  fields : List StructField
deriving DecidableEq

def StructType.NumField (s : StructType) : Nat := s.fields.length

/-- `Field` returns the i'th field; out of range reports not-found. -/
def StructType.Field (s : StructType) (i : Int) : Option StructField :=
  if 0 ≤ i ∧ i < (s.fields.length : Int) then some (s.fields.getD i.toNat sfDefault)
  else none

/-! ### Facades and the classification pass (`inspect.go`)

A binding of the type-checker's fact table (`p.info.Defs`) is opaque input:
it carries the facade data derived from the object plus the enclosing-node
path that `pathEnclosingInterval` resolves for the identifier.  The path is
innermost-first: its first element is the identifier node itself, its second
the immediate enclosing node.  `Node` keeps only the shape the code tests
for (`*ast.Field` or not). -/

abbrev TypeId := Nat

structure Facade where
  nm : String
  objKind : ObjKind
  typKind : TypKind
  objType : TypeId
  declType : Option TypeId
deriving DecidableEq

inductive Node where
  | identNode
  | field
  | other
deriving DecidableEq

structure Binding where
  fa : Facade
  path : List Node
deriving DecidableEq

/-- The skip decision of `PackageInfo.check`: `Bad`/`Lbl`/`Bui`/`Nil` objects
are always skipped; a `Var` object whose type is not `Struct` is skipped when
any node of the enclosing path is an `*ast.Field`. -/
def checkSkips (b : Binding) : Bool :=
  let k := b.fa.objKind
  if k == ObjKind.Bad || k == ObjKind.Lbl || k == ObjKind.Bui || k == ObjKind.Nil then true
  else if k == ObjKind.Var then
    if b.fa.typKind == TypKind.Struct then false
    else b.path.any (fun n => n == Node.field)
  else false

/-- `PackageInfo.check`: one facade appended per surviving binding, in
traversal order. -/
def check : List Binding → List Facade
  | [] => []
  | b :: rest => if checkSkips b then check rest else b.fa :: check rest

/-- The claim's skip decision, written from the spec sentence: a non-struct
`Var` binding is skipped only when the immediate enclosing node of the
identifier (the second element of the innermost-first path) is a field
declaration. -/
def claimSkips (b : Binding) : Bool :=
  let k := b.fa.objKind
  if k == ObjKind.Bad || k == ObjKind.Lbl || k == ObjKind.Bui || k == ObjKind.Nil then true
  else if k == ObjKind.Var then
    if b.fa.typKind == TypKind.Struct then false
    else b.path[1]? == some Node.field
  else false

/-- The classification pass as the claim describes it. -/
def checkClaim : List Binding → List Facade
  | [] => []
  | b :: rest => if claimSkips b then checkClaim rest else b.fa :: checkClaim rest

/-! ### Package and program index -/

structure PackageInfo where
  facades : List Facade
deriving DecidableEq

structure Program where
  initialPackages : List PackageInfo
  allPackages : List PackageInfo
deriving DecidableEq

/-- `Inspect` as a stateful fold: `fn` consumes the state and a facade and
returns the new state plus the continue flag; the second component of the
result records whether the traversal ran to completion. -/
def inspectS {σ : Type} (fas : List Facade) (fn : σ → Facade → σ × Bool) (st : σ) : σ × Bool :=
  match fas with
  | [] => (st, true)
  | fa :: rest =>
    let r := fn st fa
    if r.2 then inspectS rest fn r.1 else (r.1, false)

def PackageInfo.InspectS {σ : Type} (p : PackageInfo) (fn : σ → Facade → σ × Bool) (st : σ) :
    σ × Bool :=
  inspectS p.facades fn st

def progInspectAux {σ : Type} (pkgs : List PackageInfo) (fn : σ → Facade → σ × Bool) (st : σ) :
    σ × Bool :=
  match pkgs with
  | [] => (st, true)
  | p :: rest =>
    let r := inspectS p.facades fn st
    if r.2 then progInspectAux rest fn r.1 else r

/-- `Program.Inspect` traverses the facades of the initial packages only;
an early stop inside one package aborts the whole traversal. -/
def Program.InspectS {σ : Type} (prog : Program) (fn : σ → Facade → σ × Bool) (st : σ) :
    σ × Bool :=
  progInspectAux prog.initialPackages fn st

/-- The filter of `Lookup`, in the source's evaluation order. -/
def lookupPred (o : ObjKind) (t : TypKind) (nm : String) (fa : Facade) : Bool :=
  (nm == "" || fa.nm == nm) && (t == 0 || TypKind.In fa.typKind t)
    && (o == 0 || ObjKind.In fa.objKind o)

/-- The visitor closure of `Lookup`: accumulate matches, never stop early. -/
def lookupStep (o : ObjKind) (t : TypKind) (nm : String) (acc : List Facade) (fa : Facade) :
    List Facade × Bool :=
  (if lookupPred o t nm fa then acc ++ [fa] else acc, true)

def PackageInfo.Lookup (p : PackageInfo) (o : ObjKind) (t : TypKind) (nm : String) :
    List Facade :=
  (inspectS p.facades (lookupStep o t nm) []).1

def Program.Lookup (prog : Program) (o : ObjKind) (t : TypKind) (nm : String) : List Facade :=
  (Program.InspectS prog (lookupStep o t nm) []).1

def initialFacades (prog : Program) : List Facade :=
  prog.initialPackages.flatMap (fun p => p.facades)

def allFacades (prog : Program) : List Facade :=
  prog.allPackages.flatMap (fun p => p.facades)

/-- The type match of `getFacadeByTyp`: the binding's direct type, or (for a
type declaration) the declared type — the latter modelled from the spec,
`fa.go` being absent from `src/`. -/
def typMatches (ty : TypeId) (fa : Facade) : Bool :=
  fa.objType == ty || fa.declType == some ty

/-- `getFacadeByTyp` / `PackageInfo.FindFacade`: first facade matching the
queried type (the Go index sentinel collapses to `Option`). -/
def PackageInfo.FindFacade (p : PackageInfo) (ty : TypeId) : Option Facade :=
  p.facades.find? (typMatches ty)

def findFacadeAux : List PackageInfo → TypeId → Option Facade
  | [], _ => none
  | p :: rest, ty =>
    match p.FindFacade ty with
    | some fa => some fa
    | none => findFacadeAux rest ty

/-- `Program.FindFacade` scans all loaded packages, initial and transitive. -/
def Program.FindFacade (prog : Program) (ty : TypeId) : Option Facade :=
  findFacadeAux prog.allPackages ty

/-- Appending a whole sequence of methods, dropping the rejected ones (the Go
caller keeps the receiver unchanged on an `addMethod` error). -/
def addMethods (s : superType) : List FuncNode → superType
  | [] => s
  | m :: rest => addMethods (s.addMethod m).1 rest

/-- The acceptance condition of `addMethod`: a receiver exists and its
type-name equals the owner's name. -/
def canAdd (s : superType) (m : FuncNode) : Bool :=
  match m.recv with
  | none => false
  | some f => f.TypeName == s.name

/-! ### Concrete builders used by witnesses and counterexamples -/

/-- A method with the given name, parameter type-names and result type-names,
bound to receiver type `T`. -/
def mkM (nm : String) (ps rs : List String) : FuncNode :=
  { name := nm
    isVariadic := false
    recv := some { TypeName := "T" }
    params := ps.map (fun t => { TypeName := t })
    results := rs.map (fun t => { TypeName := t }) }

/-- A bare named type node carrying the given method set. -/
def mkW (nm : String) (ms : List FuncNode) : superType :=
  { name := nm, kind := TypKind.Struct, isAssign := false, methods := ms }

/-- A method whose receiver type-name `X` matches no owner used in the
witnesses. -/
def mkMBad (nm : String) : FuncNode :=
  { name := nm
    isVariadic := false
    recv := some { TypeName := "X" }
    params := []
    results := [] }

/-- A `Var` binding of non-`Struct` type whose enclosing-node path contains a
field declaration that is not the immediate enclosing node of the
identifier. -/
def cexBinding : Binding :=
  { fa :=
      { nm := "x"
        objKind := ObjKind.Var
        typKind := TypKind.Basic
        objType := 1
        declType := none }
    path := [Node.identNode, Node.other, Node.field] }

/-! ### Helper lemmas -/

lemma chLe_total (xs ys : List Char) : chLe xs ys = true ∨ chLe ys xs = true := by
  induction xs generalizing ys with
  | nil => exact Or.inl rfl
  | cons a as ih =>
    cases ys with
    | nil => exact Or.inr rfl
    | cons b bs =>
      by_cases h1 : a.toNat < b.toNat
      · left
        simp [chLe, h1]
      · by_cases h2 : b.toNat < a.toNat
        · right
          simp [chLe, h2]
        · rcases ih bs with h | h
          · left
            simp [chLe, h1, h2, h]
          · right
            simp [chLe, h1, h2, h]

lemma chLe_trans (xs ys zs : List Char) (h1 : chLe xs ys = true) (h2 : chLe ys zs = true) :
    chLe xs zs = true := by
  induction xs generalizing ys zs with
  | nil => rfl
  | cons a as ih =>
    cases ys with
    | nil => exact absurd h1 (by simp [chLe])
    | cons b bs =>
      cases zs with
      | nil => exact absurd h2 (by simp [chLe])
      | cons c cs =>
        simp only [chLe] at h1 h2 ⊢
        split_ifs at h1 h2 ⊢ <;>
          first
            | rfl
            | exact ih bs cs h1 h2
            | omega

instance : IsTotal Tag tagLe := ⟨fun a b => chLe_total a.key.data b.key.data⟩

instance : IsTrans Tag tagLe := ⟨fun _ _ _ h h' => chLe_trans _ _ _ h h'⟩

lemma bool_ext {a b : Bool} (h : a = true ↔ b = true) : a = b := by
  cases a <;> cases b <;> simp_all

lemma all_perm {α : Type} (p : α → Bool) {l l' : List α} (h : List.Perm l l') :
    l.all p = l'.all p := by
  apply bool_ext
  simp only [List.all_eq_true]
  exact ⟨fun hp x hx => hp x (h.mem_iff.mpr hx), fun hp x hx => hp x (h.mem_iff.mp hx)⟩

lemma fieldAt_lt (l : List FuncField) (j : Nat) (h : j < l.length) :
    fieldAt l (j : Int) = (l.getD j fieldDefault, true) := by
  have h0 : (0 : Int) ≤ (j : Int) := Int.ofNat_nonneg j
  have h1 : (j : Int) < (l.length : Int) := by exact_mod_cast h
  simp [fieldAt, h0, h1, Int.toNat_ofNat]

lemma fieldAt_ge (l : List FuncField) (j : Nat) (h : l.length ≤ j) :
    fieldAt l (j : Int) = (fieldDefault, false) := by
  have h1 : ¬ ((j : Int) < (l.length : Int)) := by
    simp only [not_lt]
    exact_mod_cast h
  simp [fieldAt, h1]

lemma eqFrom_eq_range_all (xs ys : List FuncField) (n : Nat) :
    eqFrom xs ys n =
      (List.range (n + 1)).all
        (fun j => (fieldAt xs (j : Int)).1.TypeName == (fieldAt ys (j : Int)).1.TypeName) := by
  induction n with
  | zero => simp [eqFrom, List.range_succ]
  | succ k ih =>
    rw [List.range_succ, List.all_append]
    simp only [eqFrom, ih, List.all_cons, List.all_nil, Bool.and_true]
    rw [Bool.and_comm]
    norm_cast

lemma eqFrom_eq_valid (xs ys : List FuncField) (h : xs.length = ys.length) :
    eqFrom xs ys xs.length =
      (List.range xs.length).all
        (fun j => (xs.getD j fieldDefault).TypeName == (ys.getD j fieldDefault).TypeName) := by
  rw [eqFrom_eq_range_all, List.range_succ, List.all_append]
  have hx : fieldAt xs (xs.length : Int) = (fieldDefault, false) := fieldAt_ge _ _ le_rfl
  have hy : fieldAt ys (xs.length : Int) = (fieldDefault, false) := fieldAt_ge _ _ (le_of_eq h.symm)
  simp only [List.all_cons, List.all_nil, hx, hy, Bool.and_true, beq_self_eq_true]
  apply bool_ext
  simp only [Bool.and_true, List.all_eq_true, List.mem_range]
  constructor
  · intro hall j hj
    have := hall j hj
    rwa [fieldAt_lt xs j hj, fieldAt_lt ys j (h ▸ hj)] at this
  · intro hall j hj
    rw [fieldAt_lt xs j hj, fieldAt_lt ys j (h ▸ hj)]
    exact hall j hj

lemma methodCheck_eq_specCovered (s : superType) (um : FuncNode) :
    methodCheck s um = specCovered s um := by
  unfold methodCheck specCovered
  cases hm : s.MethodByName um.name with
  | none => rfl
  | some cm =>
    simp only [FuncNode.NumParam, FuncNode.NumResult]
    by_cases hp : um.params.length = cm.params.length
    · by_cases hr : um.results.length = cm.results.length
      · rw [eqFrom_eq_valid _ _ hp, eqFrom_eq_valid _ _ hr]
      · have : (um.results.length == cm.results.length) = false := by
          simp [hr]
        simp [this]
    · have : (um.params.length == cm.params.length) = false := by
        simp [hp]
      simp [this]

lemma range_all_getD {α : Type} (l : List α) (d : α) (p : α → Bool) :
    (List.range l.length).all (fun i => p (l.getD i d)) = l.all p := by
  induction l with
  | nil => rfl
  | cons a t ih =>
    rw [List.length_cons, List.range_succ_eq_map, List.all_cons, List.all_map]
    simp only [List.getD_cons_zero, List.all_cons, Function.comp]
    rw [← ih]
    congr 1

lemma implAux_eq_range_all (s u : superType) (n : Nat) :
    implAux s u n =
      (List.range n).all (fun i => methodCheck s (u.methods.getD i fnDefault)) := by
  induction n with
  | zero => rfl
  | succ k ih =>
    rw [List.range_succ, List.all_append]
    simp only [implAux, ih, List.all_cons, List.all_nil, Bool.and_true]
    rw [Bool.and_comm]

lemma implements_eq_all (s u : superType) :
    s.Implements u = u.methods.all (specCovered s) := by
  unfold superType.Implements
  rw [implAux_eq_range_all]
  have hf : (fun i => methodCheck s (u.methods.getD i fnDefault))
      = (fun i => specCovered s (u.methods.getD i fnDefault)) :=
    funext fun i => methodCheck_eq_specCovered s _
  rw [hf, range_all_getD]

/-- C1: `Implements(T,U)` is true iff every method of `U` has a same-named
counterpart on `T` (found by name lookup) agreeing on variadic-ness,
parameter count, result count, and positional parameter/result type-names;
the boolean outcome does not depend on the traversal order of `U`'s
methods. -/
theorem C1_implements_structural (s u u' : superType)
    (hp : List.Perm u.methods u'.methods) :
    (s.Implements u = true ↔ ∀ um ∈ u.methods, specCovered s um = true)
      ∧ s.Implements u = s.Implements u' := by
  constructor
  · rw [implements_eq_all]
    exact List.all_eq_true
  · rw [implements_eq_all, implements_eq_all]
    exact all_perm _ hp

/-- C1 witness: a concrete type with methods `M`/`N` implements a concrete
two-method interface, independently of the interface's method order. -/
theorem C1_implements_structural_witness :
    ((mkW "T" [mkM "M" ["int"] ["error"], mkM "N" [] []]).Implements
        (mkW "I" [mkM "M" ["int"] ["error"], mkM "N" [] []]) = true
      ↔ ∀ um ∈ (mkW "I" [mkM "M" ["int"] ["error"], mkM "N" [] []]).methods,
          specCovered (mkW "T" [mkM "M" ["int"] ["error"], mkM "N" [] []]) um = true)
    ∧ (mkW "T" [mkM "M" ["int"] ["error"], mkM "N" [] []]).Implements
        (mkW "I" [mkM "M" ["int"] ["error"], mkM "N" [] []])
      = (mkW "T" [mkM "M" ["int"] ["error"], mkM "N" [] []]).Implements
        (mkW "I" [mkM "N" [] [], mkM "M" ["int"] ["error"]]) :=
  C1_implements_structural _ _ _ (by decide)

lemma addMethod_name (s : superType) (m : FuncNode) : (s.addMethod m).1.name = s.name := by
  unfold superType.addMethod
  cases m.recv with
  | none => rfl
  | some f =>
    by_cases h : f.TypeName != s.name
    · simp [h]
    · simp [h]

lemma addMethod_ok (s : superType) (m : FuncNode) (h : canAdd s m = true) :
    (s.addMethod m).1.methods = s.methods ++ [m] ∧ (s.addMethod m).2 = none := by
  unfold superType.addMethod
  unfold canAdd at h
  cases hr : m.recv with
  | none => rw [hr] at h; exact absurd h (by simp)
  | some f =>
    rw [hr] at h
    change (f.TypeName == s.name) = true at h
    have hb : (f.TypeName != s.name) = false := by simp [bne, h]
    simp [hb]

lemma addMethod_fail (s : superType) (m : FuncNode) (h : canAdd s m = false) :
    (s.addMethod m).1 = s ∧ (s.addMethod m).2.isSome = true := by
  unfold superType.addMethod
  unfold canAdd at h
  cases hr : m.recv with
  | none => exact ⟨rfl, rfl⟩
  | some f =>
    rw [hr] at h
    change (f.TypeName == s.name) = false at h
    have hb : (f.TypeName != s.name) = true := by simp [bne, h]
    simp [hb]

lemma canAdd_of_addMethod (s : superType) (m : FuncNode) :
    canAdd ((s.addMethod m).1) = canAdd s := by
  funext x
  unfold canAdd
  rw [addMethod_name]

lemma addMethods_count (s : superType) (ms : List FuncNode) :
    (addMethods s ms).methods.length = s.methods.length + ms.countP (canAdd s) := by
  induction ms generalizing s with
  | nil => simp [addMethods]
  | cons m rest ih =>
    rw [addMethods, ih, List.countP_cons]
    cases h : canAdd s m with
    | true =>
      have := addMethod_ok s m h
      rw [canAdd_of_addMethod, this.1]
      simp
      omega
    | false =>
      have := addMethod_fail s m h
      rw [canAdd_of_addMethod, this.1]
      simp [h]

/-- C6: `NumMethod()` counts exactly the successfully appended methods;
`addMethod` rejects a method with no receiver or a receiver whose type-name
differs from the owner's name, returning an error and leaving the method list
(and hence `NumMethod()`) unchanged; a successful append grows the list by
exactly that method. -/
theorem C6_numMethod_addMethod (s : superType) (ms : List FuncNode) (m : FuncNode) :
    (addMethods s ms).NumMethod = s.NumMethod + ms.countP (canAdd s)
      ∧ ((s.addMethod m).2.isSome = true
          ↔ (m.recv = none ∨ ∃ f, m.recv = some f ∧ f.TypeName ≠ s.name))
      ∧ ((s.addMethod m).2.isSome = true → (s.addMethod m).1 = s)
      ∧ ((s.addMethod m).2 = none → (s.addMethod m).1.methods = s.methods ++ [m]) := by
  refine ⟨addMethods_count s ms, ?_, ?_, ?_⟩
  · constructor
    · intro herr
      cases hc : canAdd s m with
      | false =>
        unfold canAdd at hc
        cases hr : m.recv with
        | none => exact Or.inl rfl
        | some f =>
          refine Or.inr ⟨f, rfl, ?_⟩
          rw [hr] at hc
          simpa using hc
      | true =>
        have := addMethod_ok s m hc
        rw [this.2] at herr
        simp at herr
    · intro hbad
      have hc : canAdd s m = false := by
        unfold canAdd
        rcases hbad with hn | ⟨f, hf, hne⟩
        · rw [hn]
        · rw [hf]
          simpa using hne
      exact (addMethod_fail s m hc).2
  · intro herr
    cases hc : canAdd s m with
    | false => exact (addMethod_fail s m hc).1
    | true =>
      have := addMethod_ok s m hc
      rw [this.2] at herr
      simp at herr
  · intro hok
    cases hc : canAdd s m with
    | true => exact (addMethod_ok s m hc).1
    | false =>
      have := (addMethod_fail s m hc).2
      rw [hok] at this
      simp at this

/-- C6 witness: on a concrete type named `T`, appending one matching method
and one with a mismatched receiver gives a method count of one; the rejected
append leaves the state unchanged. -/
theorem C6_numMethod_addMethod_witness :
    (addMethods (mkW "T" []) [mkM "M" [] [], mkMBad "N"]).NumMethod
        = (mkW "T" []).NumMethod + List.countP (canAdd (mkW "T" [])) [mkM "M" [] [], mkMBad "N"]
      ∧ ((mkW "T" []).addMethod (mkMBad "N")).1 = mkW "T" [] :=
  ⟨(C6_numMethod_addMethod (mkW "T" []) [mkM "M" [] [], mkMBad "N"] (mkMBad "N")).1,
    (C6_numMethod_addMethod (mkW "T" []) [mkM "M" [] [], mkMBad "N"] (mkMBad "N")).2.2.1
      (by decide)⟩

lemma atoiDigits_fail_val (ds : List Char) (neg : Bool)
    (h : (atoiDigits ds neg).2 = false) : (atoiDigits ds neg).1 = 0 := by
  unfold atoiDigits at h ⊢
  by_cases h1 : ds.isEmpty
  · simp [h1]
  · by_cases h2 : ds.all (fun d => d.isDigit)
    · rw [if_neg h1, if_pos h2] at h
      simp at h
    · simp [h1, h2]

lemma atoiAux_fail_val (cs : List Char) (h : (atoiAux cs).2 = false) : (atoiAux cs).1 = 0 := by
  cases cs with
  | nil => rfl
  | cons c rest =>
    simp only [atoiAux] at h ⊢
    split_ifs at h ⊢ <;> exact atoiDigits_fail_val _ _ h

lemma atoi_fail_val (v : String) (h : (atoi v).2 = false) : (atoi v).1 = 0 := by
  unfold atoi at h ⊢
  exact atoiAux_fail_val _ h

/-- C3 counterexample: a `ListType` built from an array type whose explicit
length is a named constant (`[N]int`): the node is of `Array` kind and was
built from an array with an explicit length, yet `Len()` returns no pair at
all (the unchecked `*ast.BasicLit` assertion panics), contradicting the
claim that it returns `(n, true)` for the length's value `n`. -/
theorem C3_len_counterexample :
    (newListType "A" false (some (Expr.ident "N"))).Kind = TypKind.Array
      ∧ (newListType "A" false (some (Expr.ident "N"))).Len = none :=
  ⟨rfl, rfl⟩

/-- C3 (amended): `Len()` returns `(-1, false)` exactly when the node was
built from a slice type (no explicit length); when built from an array whose
length expression is a basic literal that `strconv.Atoi` parses to `n`,
`Len()` returns `(n, true)`.  (For other array length expressions `Len()`
panics or falls back to `(0, true)`; see C10.) -/
theorem C3_len_array_slice (nm : String) (ia : Bool) (e : Option Expr) (v : String) (n : Int) :
    ((newListType nm ia e).Len = some (-1, false) ↔ e = none)
      ∧ (e = some (Expr.basicLit v) → atoi v = (n, true)
          → (newListType nm ia e).Len = some (n, true)) := by
  constructor
  · cases e with
    | none => simp [newListType, ListType.Len, ListType.Kind]
    | some ex =>
      simp only [newListType, ListType.Len, ListType.Kind, Option.isSome_some, if_true]
      have hk : (TypKind.Array == TypKind.Slice) = false := by decide
      rw [hk]
      simp only [Bool.false_eq_true, if_false]
      cases ex with
      | basicLit v' =>
        simp
      | ident nm' => simp
      | other => simp
  · intro he hv
    subst he
    simp only [newListType, ListType.Len, ListType.Kind, Option.isSome_some, if_true]
    have hk : (TypKind.Array == TypKind.Slice) = false := by decide
    rw [hk]
    simp [hv]

/-- C3 witness: a slice gives `(-1, false)`; an array of literal length 7
gives `(7, true)`. -/
theorem C3_len_array_slice_witness :
    ((newListType "S" false none).Len = some (-1, false) ↔ (none : Option Expr) = none)
      ∧ (newListType "A7" false (some (Expr.basicLit "7"))).Len = some (7, true) :=
  ⟨(C3_len_array_slice "S" false none "7" 7).1,
    (C3_len_array_slice "A7" false (some (Expr.basicLit "7")) "7" 7).2 rfl (by decide)⟩

/-- C10: `Len()` is total only for basic-literal lengths: an `Array`-kind
node whose length expression is not a basic literal panics (no result), and
a basic literal that `strconv.Atoi` rejects makes `Len()` discard the error
and return `(0, true)`. -/
theorem C10_len_partiality (nm : String) (ia : Bool) (e : Expr) (v : String) :
    ((∀ s, e ≠ Expr.basicLit s) → (newListType nm ia (some e)).Len = none)
      ∧ ((atoi v).2 = false
          → (newListType nm ia (some (Expr.basicLit v))).Len = some (0, true)) := by
  have hk : (TypKind.Array == TypKind.Slice) = false := by decide
  constructor
  · intro hnl
    simp only [newListType, ListType.Len, ListType.Kind, Option.isSome_some, if_true]
    rw [hk]
    simp only [Bool.false_eq_true, if_false]
    cases e with
    | basicLit s => exact absurd rfl (hnl s)
    | ident nm' => rfl
    | other => rfl
  · intro hfail
    simp only [newListType, ListType.Len, ListType.Kind, Option.isSome_some, if_true]
    rw [hk]
    simp only [Bool.false_eq_true, if_false]
    rw [atoi_fail_val v hfail]

/-- C10 witness: a named-constant length (`[N]int`) yields no result, and the
hexadecimal literal `0x10` (rejected by `Atoi`) yields `(0, true)`. -/
theorem C10_len_partiality_witness :
    (newListType "A" false (some (Expr.ident "N"))).Len = none
      ∧ (newListType "A" false (some (Expr.basicLit "0x10"))).Len = some (0, true) :=
  ⟨(C10_len_partiality "A" false (Expr.ident "N") "0x10").1
      (fun s h => Expr.noConfusion h),
    (C10_len_partiality "A" false (Expr.ident "N") "0x10").2 (by decide)⟩

lemma checkSkips_eq (b : Binding) :
    checkSkips b =
      ((b.fa.objKind == ObjKind.Bad || b.fa.objKind == ObjKind.Lbl
          || b.fa.objKind == ObjKind.Bui || b.fa.objKind == ObjKind.Nil)
        || (b.fa.objKind == ObjKind.Var && b.fa.typKind != TypKind.Struct
            && b.path.any (fun n => n == Node.field))) := by
  unfold checkSkips
  cases hA : (b.fa.objKind == ObjKind.Bad || b.fa.objKind == ObjKind.Lbl
      || b.fa.objKind == ObjKind.Bui || b.fa.objKind == ObjKind.Nil) with
  | true => simp [hA]
  | false =>
    cases hV : (b.fa.objKind == ObjKind.Var) with
    | false => simp [hA, hV]
    | true =>
      cases hS : (b.fa.typKind == TypKind.Struct) with
      | true => simp [hA, hV, hS, bne]
      | false => simp [hA, hV, hS, bne]

/-- C2 counterexample: a `Variable` binding of non-struct type whose
immediate enclosing node is not a field declaration, but whose enclosing
path contains a field declaration higher up: `check` skips it (appends no
facade), while the claim's immediate-enclosing-node rule would classify it. -/
theorem C2_check_counterexample :
    check [cexBinding] = [] ∧ checkClaim [cexBinding] = [cexBinding.fa] := by
  constructor <;> rfl

/-- C2 (amended): during the classification pass, bindings of kind
`Bad`/`Label`/`Builtin`/`Nil` are always skipped; a `Variable` binding whose
type is not `Struct` is skipped exactly when some node of its position-based
enclosing-node path (not just the immediate enclosing node) is a field
declaration; every other binding becomes one facade appended in traversal
order. -/
theorem C2_check_classification (bs : List Binding) :
    check bs =
      (bs.filter (fun b =>
        !((b.fa.objKind == ObjKind.Bad || b.fa.objKind == ObjKind.Lbl
            || b.fa.objKind == ObjKind.Bui || b.fa.objKind == ObjKind.Nil)
          || (b.fa.objKind == ObjKind.Var && b.fa.typKind != TypKind.Struct
              && b.path.any (fun n => n == Node.field))))).map (fun b => b.fa) := by
  induction bs with
  | nil => rfl
  | cons b rest ih =>
    rw [check, List.filter_cons]
    cases hs : checkSkips b with
    | true =>
      rw [if_pos rfl, ih]
      rw [checkSkips_eq] at hs
      simp [hs]
    | false =>
      rw [if_neg (by simp), ih]
      rw [checkSkips_eq] at hs
      simp [hs]

lemma inspectS_append {σ : Type} (a b : List Facade) (fn : σ → Facade → σ × Bool) (st : σ) :
    inspectS (a ++ b) fn st =
      (if (inspectS a fn st).2 then inspectS b fn (inspectS a fn st).1
       else inspectS a fn st) := by
  induction a generalizing st with
  | nil => simp [inspectS]
  | cons fa rest ih =>
    simp only [List.cons_append, inspectS]
    cases hc : (fn st fa).2 with
    | true => simp [ih]
    | false => simp

lemma progInspectAux_flatten {σ : Type} (pkgs : List PackageInfo)
    (fn : σ → Facade → σ × Bool) (st : σ) :
    progInspectAux pkgs fn st = inspectS (pkgs.flatMap (fun p => p.facades)) fn st := by
  induction pkgs generalizing st with
  | nil => rfl
  | cons p rest ih =>
    rw [List.flatMap_cons, inspectS_append, progInspectAux]
    cases hc : (inspectS p.facades fn st).2 with
    | true => simp only [if_pos rfl, ih]
    | false => simp

lemma inspectS_lookup (o : ObjKind) (t : TypKind) (nm : String) (fas : List Facade)
    (acc : List Facade) :
    inspectS fas (lookupStep o t nm) acc = (acc ++ fas.filter (lookupPred o t nm), true) := by
  induction fas generalizing acc with
  | nil => simp [inspectS]
  | cons fa rest ih =>
    cases hp : lookupPred o t nm fa with
    | true => simp [inspectS, lookupStep, hp, ih, List.filter_cons]
    | false => simp [inspectS, lookupStep, hp, ih, List.filter_cons]

lemma findFacadeAux_flatten (pkgs : List PackageInfo) (ty : TypeId) :
    findFacadeAux pkgs ty = (pkgs.flatMap (fun p => p.facades)).find? (typMatches ty) := by
  induction pkgs with
  | nil => rfl
  | cons p rest ih =>
    rw [List.flatMap_cons, List.find?_append, findFacadeAux, PackageInfo.FindFacade]
    cases hf : p.facades.find? (typMatches ty) with
    | none => simp [ih]
    | some fa => simp

/-- C7: at program scope `Inspect` (and hence `Lookup`) traverses exactly the
facades of the initial packages, in order, while `FindFacade` scans the
facades of all loaded packages — including transitive dependencies —
returning the first facade whose binding's direct type or declared type
equals the queried type. -/
theorem C7_program_scope (prog : Program) (o : ObjKind) (t : TypKind) (nm : String)
    (ty : TypeId) :
    (∀ {σ : Type} (fn : σ → Facade → σ × Bool) (st : σ),
        Program.InspectS prog fn st = inspectS (initialFacades prog) fn st)
      ∧ Program.Lookup prog o t nm = (initialFacades prog).filter (lookupPred o t nm)
      ∧ Program.FindFacade prog ty = (allFacades prog).find? (typMatches ty) := by
  refine ⟨?_, ?_, ?_⟩
  · intro σ fn st
    exact progInspectAux_flatten prog.initialPackages fn st
  · unfold Program.Lookup Program.InspectS initialFacades
    rw [progInspectAux_flatten, inspectS_lookup]
    simp
  · unfold Program.FindFacade allFacades
    exact findFacadeAux_flatten prog.allPackages ty

/-- C8: `Lookup` with zero kind masks and the empty name returns every facade
in scope in insertion order, both at package and at program scope; in
general `Lookup` filters by exact name match (when the name is non-empty)
and by membership of the facade's kind bit in each non-zero mask. -/
theorem C8_lookup_filters (p : PackageInfo) (prog : Program) (o : ObjKind) (t : TypKind)
    (nm : String) :
    p.Lookup 0 0 "" = p.facades
      ∧ Program.Lookup prog 0 0 "" = initialFacades prog
      ∧ p.Lookup o t nm = p.facades.filter (lookupPred o t nm) := by
  have hall : ∀ fas : List Facade, fas.filter (lookupPred 0 0 "") = fas := by
    intro fas
    have : ∀ fa ∈ fas, lookupPred 0 0 "" fa = true := by
      intro fa _
      rfl
    induction fas with
    | nil => rfl
    | cons fa rest ih =>
      rw [List.filter_cons, if_pos (by simp [this fa (by simp)])]
      rw [ih (fun x hx => this x (by simp [hx]))]
  refine ⟨?_, ?_, ?_⟩
  · unfold PackageInfo.Lookup
    rw [inspectS_lookup, hall]
    simp
  · unfold Program.Lookup Program.InspectS
    rw [progInspectAux_flatten, inspectS_lookup, hall]
    rfl
  · unfold PackageInfo.Lookup
    rw [inspectS_lookup]
    simp

/-- C9 counterexample: the tag accessor `Get` does not report an absent key
through a found/not-found boolean — on a field with no tags at all (zero
keys) it returns an explicit error value, the not-exist error of the tag
library. -/
theorem C9_get_counterexample :
    (newStructTag none).Keys = [] ∧
      (newStructTag none).Get "json" = Except.error errTagNotExist :=
  ⟨rfl, rfl⟩

/-- C9 (amended): `Method(i)` and `Field(i)` report any index outside
`[0, count)` by a not-found result, `FindFacade` reports an unmatched type by
a not-found result, and none of them fails; tag `Get`, however, signals an
absent key by returning the library's error value (with no tag), not by a
boolean. -/
theorem C9_lookup_not_found (s : superType) (stc : StructType) (prog : Program)
    (tg : StructTag) (i : Int) (k : String) (ty : TypeId) :
    ((i < 0 ∨ ((s.NumMethod : Int) ≤ i)) → s.Method i = none)
      ∧ ((i < 0 ∨ ((stc.NumField : Int) ≤ i)) → stc.Field i = none)
      ∧ ((∀ fa ∈ allFacades prog, typMatches ty fa = false)
          → Program.FindFacade prog ty = none)
      ∧ ((∀ tg' ∈ tg.tags, tg'.key ≠ k) → tg.Get k = Except.error errTagNotExist) := by
  refine ⟨?_, ?_, ?_, ?_⟩
  · intro h
    unfold superType.Method
    rw [if_neg]
    rintro ⟨h0, hlt⟩
    unfold superType.NumMethod at h
    rcases h with h | h
    · omega
    · omega
  · intro h
    unfold StructType.Field
    rw [if_neg]
    rintro ⟨h0, hlt⟩
    unfold StructType.NumField at h
    rcases h with h | h
    · omega
    · omega
  · intro h
    unfold Program.FindFacade
    rw [findFacadeAux_flatten]
    rw [List.find?_eq_none]
    intro fa hfa
    rw [h fa hfa]
    simp
  · intro h
    unfold StructTag.Get tagsGet
    have hn : tg.tags.find? (fun t => t.key == k) = none := by
      rw [List.find?_eq_none]
      intro t ht
      simpa using h t ht
    rw [hn]

/-- C9 witness: out-of-range index 2 on a one-method type and a one-field
struct, an unmatched type id, and an absent tag key, each reported
not-found. -/
theorem C9_lookup_not_found_witness :
    (mkW "T" [mkM "M" [] []]).Method 2 = none
      ∧ ({ sup := mkW "T" [], fields := [sfDefault] } : StructType).Field 2 = none
      ∧ Program.FindFacade { initialPackages := [], allPackages := [] } 5 = none
      ∧ (newStructTag none).Get "k" = Except.error errTagNotExist := by
  refine ⟨?_, ?_, ?_, ?_⟩
  · exact (C9_lookup_not_found (mkW "T" [mkM "M" [] []])
      { sup := mkW "T" [], fields := [sfDefault] }
      { initialPackages := [], allPackages := [] } (newStructTag none) 2 "k" 5).1
      (Or.inr (by decide))
  · exact (C9_lookup_not_found (mkW "T" [mkM "M" [] []])
      { sup := mkW "T" [], fields := [sfDefault] }
      { initialPackages := [], allPackages := [] } (newStructTag none) 2 "k" 5).2.1
      (Or.inr (by decide))
  · exact (C9_lookup_not_found (mkW "T" [mkM "M" [] []])
      { sup := mkW "T" [], fields := [sfDefault] }
      { initialPackages := [], allPackages := [] } (newStructTag none) 2 "k" 5).2.2.1
      (by intro fa hfa; simp [allFacades] at hfa)
  · exact (C9_lookup_not_found (mkW "T" [mkM "M" [] []])
      { sup := mkW "T" [], fields := [sfDefault] }
      { initialPackages := [], allPackages := [] } (newStructTag none) 2 "k" 5).2.2.2
      (by
        have he : (newStructTag none).tags = [] := rfl
        intro t ht
        rw [he] at ht
        simp at ht)

/-- C5: malformed tag text never corrupts the tag set: when parsing the raw
annotation text fails, the field's handler holds an empty tag set (zero
keys), every read-only accessor (`Get`, `Keys`, `Tags`, `String`) operates on
that empty set without failing, and only the explicit `reparse` operation
returns the parse error (still leaving the set empty). -/
theorem C5_parse_tolerance (raw e : String) (h : parseTags raw = Except.error e) :
    (newStructTag (some raw)).tags = []
      ∧ (newStructTag (some raw)).Keys = []
      ∧ (newStructTag (some raw)).TagsList = []
      ∧ (newStructTag (some raw)).text = ""
      ∧ (∀ k, (newStructTag (some raw)).Get k = Except.error errTagNotExist)
      ∧ ((newStructTag (some raw)).reparse).2 = some e
      ∧ ((newStructTag (some raw)).reparse).1.tags = [] := by
  have hst : newStructTag (some raw) = { fieldTag := some raw, tags := [] } := by
    unfold newStructTag StructTag.reparse
    simp only [Option.getD_some]
    rw [h]
  have hrp : ({ fieldTag := some raw, tags := [] } : StructTag).reparse
      = ({ fieldTag := some raw, tags := [] }, some e) := by
    unfold StructTag.reparse
    simp only [Option.getD_some]
    rw [h]
  refine ⟨by rw [hst], by rw [hst]; rfl, by rw [hst]; rfl, by rw [hst]; rfl, ?_, ?_, ?_⟩
  · intro k
    rw [hst]
    rfl
  · rw [hst, hrp]
  · rw [hst, hrp]

/-- C5 witness: the raw text `a:"1` (unbalanced quote) fails to parse with
the tag-value syntax error, and the resulting handler has zero keys. -/
theorem C5_parse_tolerance_witness :
    (newStructTag (some "a:\"1")).Keys = []
      ∧ ((newStructTag (some "a:\"1")).reparse).2 = some errTagValueSyntax :=
  ⟨(C5_parse_tolerance "a:\"1" errTagValueSyntax rfl).2.1,
    (C5_parse_tolerance "a:\"1" errTagValueSyntax rfl).2.2.2.2.2.1⟩

lemma tagsSet_key_unique (ts : List Tag) (t : Tag) :
    ∀ x ∈ tagsSet ts t, x.key = t.key → x = t := by
  intro x hx hk
  unfold tagsSet at hx
  by_cases ha : ts.any (fun y => y.key == t.key)
  · rw [if_pos ha] at hx
    rcases List.mem_map.mp hx with ⟨y, _, hy⟩
    by_cases hyk : y.key == t.key
    · rw [if_pos hyk] at hy
      exact hy.symm
    · rw [if_neg hyk] at hy
      subst hy
      exact absurd (by simp [hk]) hyk
  · rw [if_neg ha] at hx
    rcases List.mem_append.mp hx with hx | hx
    · exfalso
      apply ha
      rw [List.any_eq_true]
      exact ⟨x, hx, by simp [hk]⟩
    · simpa using hx

lemma tagsSet_mem (ts : List Tag) (t : Tag) : t ∈ tagsSet ts t := by
  unfold tagsSet
  by_cases ha : ts.any (fun y => y.key == t.key)
  · rw [if_pos ha]
    rw [List.any_eq_true] at ha
    rcases ha with ⟨y, hy, hyk⟩
    exact List.mem_map.mpr ⟨y, hy, by rw [if_pos hyk]⟩
  · rw [if_neg ha]
    simp

lemma find?_key_unique (l : List Tag) (t : Tag) (hmem : t ∈ l)
    (huniq : ∀ x ∈ l, x.key = t.key → x = t) :
    l.find? (fun x => x.key == t.key) = some t := by
  cases hf : l.find? (fun x => x.key == t.key) with
  | none =>
    rw [List.find?_eq_none] at hf
    exact absurd (by simp) (hf t hmem)
  | some x =>
    have hp := List.find?_some hf
    have hx := List.mem_of_find?_eq_some hf
    rw [huniq x hx (by simpa using hp)]

lemma sortTags_mem (ts : List Tag) (t : Tag) : t ∈ sortTags ts ↔ t ∈ ts :=
  (List.perm_insertionSort tagLe ts).mem_iff

lemma set_result (st : StructTag) (t : Tag) (hk : t.key ≠ "") :
    st.Set t = (StructTag.resetValue { st with tags := tagsSet st.tags t }, none) := by
  unfold StructTag.Set
  rw [if_neg (by simpa using hk)]

/-- C4: tag round-trip and serialization order.  For a valid tag (non-blank
key): `Set` succeeds and a following `Get` of its key returns exactly that
tag; `Get` after `Delete` of the key reports the not-exist error; after any
successful `Set` the stored tag collection is key-sorted and the field's raw
text is its serialization (cleared entirely when empty); deleting every key
empties the collection and clears the field's annotation; and inserting
`b:"2"` then `a:"1"` from scratch serializes key-sorted as `a:"1" b:"2"`. -/
theorem C4_tag_roundtrip (st : StructTag) (t : Tag) (ks : List String) (k : String) :
    (t.key ≠ "" → (st.Set t).2 = none ∧ ((st.Set t).1).Get t.key = Except.ok t)
      ∧ (k ∈ ks → (st.Delete ks).Get k = Except.error errTagNotExist)
      ∧ ((st.Set t).2 = none →
          List.Sorted tagLe (st.Set t).1.tags
            ∧ (st.Set t).1.fieldTag =
                (if tagsToString (st.Set t).1.tags = "" then none
                 else some (tagsToString (st.Set t).1.tags)))
      ∧ ((st.Delete st.Keys).tags = [] ∧ (st.Delete st.Keys).fieldTag = none)
      ∧ ((((newStructTag none).Set { key := "b", nm := "2", options := [] }).1.Set
            { key := "a", nm := "1", options := [] }).1.fieldTag
          = some "a:\"1\" b:\"2\"") := by
  refine ⟨?_, ?_, ?_, ?_, by decide⟩
  · intro hk
    rw [set_result st t hk]
    refine ⟨rfl, ?_⟩
    unfold StructTag.resetValue StructTag.Get tagsGet
    by_cases hv : tagsToString (sortTags (tagsSet st.tags t)) = ""
    · rw [if_pos hv]
      rw [find?_key_unique _ t ((sortTags_mem _ t).mpr (tagsSet_mem st.tags t))
        (fun x hx => tagsSet_key_unique st.tags t x ((sortTags_mem _ x).mp hx))]
    · rw [if_neg hv]
      rw [find?_key_unique _ t ((sortTags_mem _ t).mpr (tagsSet_mem st.tags t))
        (fun x hx => tagsSet_key_unique st.tags t x ((sortTags_mem _ x).mp hx))]
  · intro hks
    unfold StructTag.Delete StructTag.resetValue StructTag.Get tagsGet
    have hnone : (sortTags (tagsDelete st.tags ks)).find? (fun x => x.key == k) = none := by
      rw [List.find?_eq_none]
      intro x hx
      have hx' : x ∈ tagsDelete st.tags ks := (sortTags_mem _ x).mp hx
      unfold tagsDelete at hx'
      have hmf := List.mem_filter.mp hx'
      intro hxk
      have hxk' : x.key = k := by simpa using hxk
      have hfalse : (ks.contains x.key) = false := by simpa using hmf.2
      have htrue : (ks.contains x.key) = true := by
        rw [hxk', List.contains_eq_any_beq, List.any_eq_true]
        exact ⟨k, hks, by simp⟩
      rw [htrue] at hfalse
      exact Bool.noConfusion hfalse
    by_cases hv : tagsToString (sortTags (tagsDelete st.tags ks)) = ""
    · rw [if_pos hv]
      rw [hnone]
    · rw [if_neg hv]
      rw [hnone]
  · intro hok
    have hk : t.key ≠ "" := by
      intro hk
      unfold StructTag.Set at hok
      rw [if_pos (by simp [hk])] at hok
      simp at hok
    rw [set_result st t hk]
    unfold StructTag.resetValue
    by_cases hv : tagsToString (sortTags (tagsSet st.tags t)) = ""
    · rw [if_pos hv]
      refine ⟨List.sorted_insertionSort tagLe _, ?_⟩
      rw [if_pos hv]
    · rw [if_neg hv]
      refine ⟨List.sorted_insertionSort tagLe _, ?_⟩
      rw [if_neg hv]
  · have hdel : tagsDelete st.tags st.Keys = [] := by
      unfold tagsDelete
      rw [List.filter_eq_nil_iff]
      intro x hx
      have hkm : x.key ∈ st.tags.map (fun tg => tg.key) := List.mem_map.mpr ⟨x, hx, rfl⟩
      simp [StructTag.Keys, hkm]
    unfold StructTag.Delete StructTag.resetValue
    rw [hdel]
    exact ⟨rfl, rfl⟩

/-- C4 witness: on a fresh tagless field, setting `k:"v"` succeeds and reads
back, and deleting `k` then reading it reports not-found. -/
theorem C4_tag_roundtrip_witness :
    (((newStructTag none).Set { key := "k", nm := "v", options := [] }).2 = none
        ∧ (((newStructTag none).Set { key := "k", nm := "v", options := [] }).1).Get "k"
            = Except.ok { key := "k", nm := "v", options := [] })
      ∧ ((newStructTag none).Delete ["k"]).Get "k" = Except.error errTagNotExist :=
  ⟨(C4_tag_roundtrip (newStructTag none) { key := "k", nm := "v", options := [] } ["k"] "k").1
      (by decide),
    (C4_tag_roundtrip (newStructTag none) { key := "k", nm := "v", options := [] } ["k"] "k").2.1
      (by simp)⟩

end Aster
